import Mathlib

/-!
Verification of the AutoCompresor batch-compression core against its
natural-language specification.

The definitions below are a shallow embedding of `src/core/compressor.py` and
`src/core/file_manager.py`.  Filesystem state is abstracted into explicit
existence predicates and per-file environments; wall-clock time and the
logging session id are abstracted to fixed values (they are environment
noise, never branched on by the code under verification).  Machine details:
CPython integers are unbounded, so `Nat`/`Int` model them exactly.
-/

namespace AutoCompresor

/-- Left brace character, written via its code point. -/
def lbrace : Char := Char.ofNat 123

/-- Right brace character, written via its code point. -/
def rbrace : Char := Char.ofNat 125

/-- Values substitutable in a naming template: Python str or int (the
`variables` dict in `_generate_zip_name` holds strings and one int). -/
inductive PyVal where
  | s (v : String)
  | i (v : Nat)
deriving Repr, DecidableEq

/-- Exceptions raised by CPython `str.format` that the source code
distinguishes: `_generate_zip_name` catches `KeyError` only, so everything
else (ValueError for malformed templates or bad specs, IndexError for
positional fields) is folded into `valueError`, which the source lets
propagate. -/
inductive FmtError where
  | keyError (key : String)
  | valueError (msg : String)
deriving Repr, DecidableEq

/-- Zero-pad a decimal representation to the given width (Python `0Nd`). -/
def padZero (width : Nat) (s : String) : String :=
  if s.length < width then String.mk (List.replicate (width - s.length) '0') ++ s else s

/-- Recognize a format spec of shape `0<digits>d` and return the width. -/
def parseZeroPad (sp : String) : Option Nat :=
  match sp.toList with
  | '0' :: rest =>
    let ds := rest.dropLast
    if rest.getLast? = some 'd' ∧ ds ≠ [] ∧ ds.all Char.isDigit then
      some (ds.foldl (fun a c => a * 10 + (c.toNat - 48)) 0)
    else none
  | _ => none

/-- Apply a format spec to a value.  Modelled for the specs that occur in the
repository configuration: the empty spec (default `str` conversion) and
zero-padded decimal specs such as `03d` on integers.  Any other spec raises
ValueError, as CPython does when a spec does not fit the value. -/
def applySpec (spec : Option String) (v : PyVal) : Except FmtError String :=
  match spec, v with
  | none, .s t => .ok t
  | none, .i n => .ok (toString n)
  | some sp, .i n =>
    match parseZeroPad sp with
    | some w => .ok (padZero w (toString n))
    | none => .error (.valueError ("Unknown format code in spec " ++ sp))
  | some sp, .s _ => .error (.valueError ("Unknown format code in spec " ++ sp))

/-- Core of CPython `str.format` on a template, restricted to the shapes the
program feeds it: literal text, doubled-brace escapes, and plain named fields
with an optional format spec (no attribute access or indexing).  A field with
an empty or all-digit name is positional; the program passes only keyword
arguments, so CPython raises IndexError there, modelled as `valueError`.
The fuel argument only bounds recursion and is chosen large enough that the
exhausted branch is unreachable. -/
def pyFormatAux (vars : String → Option PyVal) : Nat → List Char → Except FmtError String
  | 0, _ => .ok ""
  | _ + 1, [] => .ok ""
  | fuel + 1, c :: rest =>
    if c = lbrace then
      match rest with
      | [] => .error (.valueError "Single open brace encountered in format string")
      | c2 :: rest2 =>
        if c2 = lbrace then
          (pyFormatAux vars fuel rest2).map (fun t => String.singleton lbrace ++ t)
        else
          let field := (c2 :: rest2).takeWhile (fun d => d ≠ rbrace)
          match (c2 :: rest2).drop field.length with
          | [] => .error (.valueError "expected close brace before end of string")
          | _ :: after =>
            let parts := field.span (fun d => d ≠ ':')
            let name := String.mk parts.1
            let spec : Option String :=
              if parts.2 = [] then none else some (String.mk (parts.2.drop 1))
            if name = "" ∨ parts.1.all Char.isDigit then
              .error (.valueError "Replacement index out of range")
            else
              match vars name with
              | none => .error (.keyError name)
              | some v =>
                match applySpec spec v with
                | .error e => .error e
                | .ok txt => (pyFormatAux vars fuel after).map (fun t => txt ++ t)
    else if c = rbrace then
      match rest with
      | c2 :: rest2 =>
        if c2 = rbrace then
          (pyFormatAux vars fuel rest2).map (fun t => String.singleton rbrace ++ t)
        else .error (.valueError "Single close brace encountered in format string")
      | [] => .error (.valueError "Single close brace encountered in format string")
    else
      (pyFormatAux vars fuel rest).map (fun t => String.singleton c ++ t)

/-- Embedding of `template.format(**variables)` as called by
`_generate_zip_name`. -/
def pyFormat (vars : String → Option PyVal) (template : String) : Except FmtError String :=
  pyFormatAux vars (template.length + 1) template.toList

/-- One discovered source file (`FileInfo` in `file_manager.py`).  The
`invoice` field is the value of the `_extract_invoice_number` regex heuristic
on the stem; no claim depends on its value, so it is carried as data. -/
structure FileRec where
  name : String
  stem : String
  ext : String
  size : Nat
  invoice : String
deriving Repr, DecidableEq

/-- Strings produced from `datetime.now()` at naming time. -/
structure DateVars where
  fecha : String
  fechaCorta : String
  hora : String
  timestamp : String
deriving Repr, DecidableEq

/-- Embedding of the `variables` dict built in `_generate_zip_name`
(compressor.py lines 435-445). -/
def nameVars (d : DateVars) (f : FileRec) (counter : Nat) : String → Option PyVal :=
  fun k =>
    if k = "fecha" then some (.s d.fecha)
    else if k = "fecha_corta" then some (.s d.fechaCorta)
    else if k = "hora" then some (.s d.hora)
    else if k = "timestamp" then some (.s d.timestamp)
    else if k = "nombre_original" then some (.s f.stem)
    else if k = "contador" then some (.i counter)
    else if k = "extension_original" then some (.s f.ext)
    else if k = "numero_factura" then some (.s f.invoice)
    else none

/-- The default `naming_patterns` dict from `config_manager.py`
(lines 90-97). -/
def defaultNamingPatterns : List (String × String) :=
  [("fecha_archivo", "\x7bfecha\x7d_\x7bnombre_original\x7d"),
   ("archivo_fecha", "\x7bnombre_original\x7d_\x7bfecha\x7d"),
   ("contador_archivo", "\x7bcontador:03d\x7d_\x7bnombre_original\x7d"),
   ("timestamp_archivo", "\x7btimestamp\x7d_\x7bnombre_original\x7d"),
   ("nombre_original", "\x7bnombre_original\x7d"),
   ("personalizado", "\x7bfecha_archivo\x7d")]

/-- Conflict-resolution policies (`ConflictResolution` enum in
`file_manager.py`). -/
inductive ConflictResolution where
  | rename
  | overwrite
  | skip
  | ask
deriving Repr, DecidableEq

/-- Configuration for one run (`CompressionConfig` dataclass).  The source
and backup folder paths, subfolder flag and filters act only through the
run environment (scan result, existence predicates), so they are not
repeated here; note the dataclass has no counter-seed field. -/
structure CompressionConfig where
  naming_pattern : String
  custom_pattern : String := ""
  compression_level : Int := 6
  conflict_resolution : ConflictResolution := .rename
  verify_integrity : Bool := true
  include_subfolders : Bool := false
deriving Repr, DecidableEq

/-- Pattern selection in `_generate_zip_name` (lines 429-432):
the custom pattern when `naming_pattern == 'personalizado'` and the custom
string is truthy, else `patterns.get(naming_pattern, patterns['fecha_archivo'])`.
With the shipped configuration `fecha_archivo` is always present, so the
final `getD ""` default is unreachable. -/
def chosenPattern (patterns : List (String × String)) (cfg : CompressionConfig) : String :=
  if cfg.naming_pattern = "personalizado" ∧ cfg.custom_pattern ≠ "" then cfg.custom_pattern
  else
    (List.lookup cfg.naming_pattern patterns).getD
      ((List.lookup "fecha_archivo" patterns).getD "")

/-- Embedding of `CompressorEngine._generate_zip_name` (lines 415-456).
Returns `ok (zipName, newCounter)`; the counter is incremented exactly on the
successful-format path.  A `KeyError` from the format call is caught and the
fixed fallback name is produced without incrementing.  Any other exception
escapes this function (only `except KeyError` appears in the source), which
the `error` result records. -/
def generateZipName (patterns : List (String × String)) (cfg : CompressionConfig)
    (d : DateVars) (f : FileRec) (counter : Nat) : Except String (String × Nat) :=
  let pattern := chosenPattern patterns cfg
  match pyFormat (nameVars d f counter) pattern with
  | .ok s => .ok (s ++ ".zip", counter + 1)
  | .error (.keyError _) => .ok (d.fecha ++ "_" ++ f.stem ++ ".zip", counter)
  | .error (.valueError m) => .error m

/-- Candidate name `{stem}_{n}{ext}` tried by `_generate_unique_name`. -/
def unameN (base ext : String) (n : Nat) : String :=
  base ++ "_" ++ toString n ++ ext

/-- Loop of `FileManager._generate_unique_name` (file_manager.py lines
288-302): try counters 1, 2, ... and return the first free name; once the
counter passes 9999 return a timestamp-suffixed name instead.  Exactly 9999
candidate names are tried, so with fuel 9999 the fuel-exhausted branch is
unreachable; it carries the same timestamp exit so the function is total. -/
def genUniqueLoop (ex : String → Bool) (base ext ts : String) : Nat → Nat → String
  | _, 0 => base ++ "_" ++ ts ++ ext
  | c, fuel + 1 =>
    let nm := unameN base ext c
    if ex nm = false then nm
    else if 9999 < c + 1 then base ++ "_" ++ ts ++ ext
    else genUniqueLoop ex base ext ts (c + 1) fuel

/-- Embedding of `FileManager._generate_unique_name` (lines 275-302).
`ex` is the existence check against the destination directory; the function
performs no writes, it only reads `ex`. -/
def generateUniqueName (ex : String → Bool) (base ext ts : String) : String :=
  genUniqueLoop ex base ext ts 1 9999

/-- Embedding of `FileManager._resolve_conflict` (lines 249-273): overwrite
keeps the destination, skip cancels, rename picks a unique name and ask
falls back to rename. -/
def resolveConflict (ex : String → Bool) (base ext ts : String)
    (res : ConflictResolution) : Option String :=
  match res with
  | .overwrite => some (base ++ ext)
  | .skip => none
  | .rename => some (generateUniqueName ex base ext ts)
  | .ask => some (generateUniqueName ex base ext ts)

/-- Environment for one `move_to_backup` call: whether the source still
exists, whether the backup folder can be created/written, which names exist
inside the backup folder, and whether the move itself raises. -/
structure MoveEnv where
  srcExists : Bool := true
  backupCreatable : Bool := true
  destEx : String → Bool := fun _ => false
  moveRaises : Bool := false
  ts : String := ""

/-- Embedding of `FileManager.move_to_backup` (lines 205-247): returns the
final name inside the backup folder, or none on any failure (missing source,
uncreatable backup folder, skip-cancelled conflict, or a raising move). -/
def moveToBackup (env : MoveEnv) (fileName fileStem fileExt : String)
    (res : ConflictResolution) : Option String :=
  if env.srcExists = false then none
  else if env.backupCreatable = false then none
  else
    let dest := fileName
    let dest2 : Option String :=
      if env.destEx dest then resolveConflict env.destEx fileStem fileExt env.ts res
      else some dest
    match dest2 with
    | none => none
    | some dst => if env.moveRaises then none else some dst

/-- One member of a zip archive as seen through `zipfile`: stored name and
uncompressed size. -/
structure ZipEntry where
  name : String
  file_size : Nat
deriving Repr, DecidableEq

/-- A zip archive as re-opened by `_verify_zip_integrity`: `badFile` models
the result of `zipf.testzip()` (first corrupt member, or none) and
`openRaises` models an exception while opening (e.g. BadZipFile), which the
function's catch-all turns into a failed verification. -/
structure ZipArchive where
  entries : List ZipEntry
  badFile : Option String := none
  openRaises : Bool := false
deriving Repr, DecidableEq

/-- Embedding of `CompressorEngine._verify_zip_integrity` (lines 458-488):
fail if opening raises, if `testzip` reports a corrupt member, if the
original file's name is not among the member names, or if that member's
uncompressed size differs from the source size.  CPython's `getinfo` reads
the name-to-info dict in which a duplicated name keeps the last entry; the
archives verified here are written with a single `write` call, so they have
one entry and `find?` agrees with the dict lookup. -/
def verifyZipIntegrity (z : ZipArchive) (f : FileRec) : Bool :=
  if z.openRaises then false
  else if z.badFile.isSome then false
  else if (z.entries.map ZipEntry.name).contains f.name = false then false
  else
    match z.entries.find? (fun e => e.name == f.name) with
    | some info => info.file_size == f.size
    | none => false

/-- Per-file filesystem environment for `_compress_single_file`: whether the
candidate zip path already exists, existence of names in the source
directory (consulted by the rename branch), whether creating the zip raises,
the archive contents as re-opened for verification, and the on-disk size of
the written zip. -/
structure FsEnv where
  zipExists : Bool := false
  zipDirEx : String → Bool := fun _ => false
  writeRaises : Option String := none
  readBack : ZipArchive
  compressedSize : Nat
  ts : String := ""

/-- Outcome tag of processing one file (the `status` key of the dict
returned by `_compress_single_file`). -/
inductive SStatus where
  | success (sizeSaved : Int)
  | error (msg : String)
  | skip
deriving Repr, DecidableEq

/-- Result of `_compress_single_file`: outcome, the engine counter after the
call, the zip path used, and what happened to the archive on disk. -/
structure SingleRes where
  status : SStatus
  counter : Nat
  zipPath : String
  archiveWritten : Bool
  archiveUnlinked : Bool
deriving Repr, DecidableEq

/-- Embedding of `CompressorEngine._compress_single_file` (lines 344-413).
The enclosing try/except converts any exception — including a non-KeyError
escaping `_generate_zip_name` — into an error outcome.  If the candidate zip
exists, policy skip returns a skip outcome before anything is written and
policy rename picks a unique path; overwrite and ask fall through and write
to the existing path.  With verification enabled, a failed
`_verify_zip_integrity` unlinks the fresh archive and yields an error.
`size_saved = original - compressed` may be negative. -/
def compressSingleFile (patterns : List (String × String)) (cfg : CompressionConfig)
    (d : DateVars) (env : FsEnv) (f : FileRec) (counter : Nat) : SingleRes :=
  match generateZipName patterns cfg d f counter with
  | .error m => ⟨.error m, counter, "", false, false⟩
  | .ok (zipName, c2) =>
    if env.zipExists ∧ cfg.conflict_resolution = .skip then
      ⟨.skip, c2, "", false, false⟩
    else
      let zipPath : String :=
        if env.zipExists ∧ cfg.conflict_resolution = .rename then
          generateUniqueName env.zipDirEx (zipName.dropRight 4) ".zip" env.ts
        else zipName
      match env.writeRaises with
      | some m => ⟨.error m, c2, zipPath, false, false⟩
      | none =>
        if cfg.verify_integrity ∧ verifyZipIntegrity env.readBack f = false then
          ⟨.error "Verificación de integridad falló", c2, zipPath, true, true⟩
        else
          ⟨.success ((f.size : Int) - (env.compressedSize : Int)), c2, zipPath, true, false⟩

/-- One scanned file together with its per-file filesystem environment for
compression and relocation. -/
structure FileIn where
  f : FileRec
  fs : FsEnv
  mv : MoveEnv

/-- Observable record of one iteration of the `_process_files` loop body:
the outcome, the naming-counter value bound to `contador` for this file and
its value afterwards, the archive's fate, and the relocation result
(`backupWarning` marks the logged 'could not move to backup' warning). -/
structure StepRec where
  status : SStatus
  counterUsed : Nat
  counterAfter : Nat
  archiveWritten : Bool
  archiveUnlinked : Bool
  moveAttempted : Bool
  movedTo : Option String
  backupWarning : Bool
deriving Repr, DecidableEq

/-- One iteration of the loop body in `_process_files` (lines 292-325):
compress the file; only on success relocate the original, logging a warning
when relocation returns none.  Error and skip outcomes never touch the
original. -/
def processStep (patterns : List (String × String)) (cfg : CompressionConfig)
    (d : DateVars) (x : FileIn) (counter : Nat) : StepRec :=
  let r := compressSingleFile patterns cfg d x.fs x.f counter
  match r.status with
  | .success v =>
    let moved := moveToBackup x.mv x.f.name x.f.stem x.f.ext cfg.conflict_resolution
    { status := .success v, counterUsed := counter, counterAfter := r.counter,
      archiveWritten := r.archiveWritten, archiveUnlinked := r.archiveUnlinked,
      moveAttempted := true, movedTo := moved, backupWarning := moved.isNone }
  | st =>
    { status := st, counterUsed := counter, counterAfter := r.counter,
      archiveWritten := r.archiveWritten, archiveUnlinked := r.archiveUnlinked,
      moveAttempted := false, movedTo := none, backupWarning := false }

/-- The sequential loop of `_process_files` (lines 280-325): before each file
the stop flag is consulted (modelled per index, since another thread may set
it at any point between files) and the loop breaks when it is set; the pause
event only blocks and has no effect on the sequential semantics. -/
def processLoop (patterns : List (String × String)) (cfg : CompressionConfig)
    (d : DateVars) (stop : Nat → Bool) : List FileIn → Nat → Nat → List StepRec
  | [], _, _ => []
  | x :: xs, i, c =>
    if stop i then []
    else
      let s := processStep patterns cfg d x c
      s :: processLoop patterns cfg d stop xs (i + 1) s.counterAfter

/-- Decide whether a status is a success. -/
def isSuccess : SStatus → Bool
  | .success _ => true
  | _ => false

/-- Decide whether a status is an error. -/
def isError : SStatus → Bool
  | .error _ => true
  | _ => false

/-- Decide whether a status is a skip. -/
def isSkip : SStatus → Bool
  | .skip => true
  | _ => false

/-- Value of the `processed` accumulator after the given steps. -/
def processedOf (l : List StepRec) : Nat := l.countP (fun s => isSuccess s.status)

/-- Value of the `failed` accumulator after the given steps. -/
def failedOf (l : List StepRec) : Nat := l.countP (fun s => isError s.status)

/-- Value of the `skipped` accumulator after the given steps. -/
def skippedOf (l : List StepRec) : Nat := l.countP (fun s => isSkip s.status)

/-- Value of the `total_saved` accumulator after the given steps (summed
only over success outcomes, exactly as the loop does). -/
def savedOf (l : List StepRec) : Int :=
  (l.filterMap (fun s =>
    match s.status with
    | .success v => some v
    | _ => none)).sum

/-- The `errors` list accumulated by the loop (one message per error
outcome, in order). -/
def errorsOf (l : List StepRec) : List String :=
  l.filterMap (fun s =>
    match s.status with
    | .error m => some m
    | _ => none)

/-- Result record returned by `compress_files` (the `CompressionResult`
dataclass).  `execution_time` and `session_id` are set from the wall clock
and the logger; both are abstracted (0 and "") since nothing branches on
them. -/
structure CompressionResult where
  success : Bool
  processed_files : Nat
  failed_files : Nat
  skipped_files : Nat
  total_size_saved : Int
  execution_time : Int
  errors : List String
  session_id : String
deriving Repr, DecidableEq

/-- The `total_files` property of `CompressionResult` (lines 56-58). -/
def CompressionResult.total_files (r : CompressionResult) : Nat :=
  r.processed_files + r.failed_files + r.skipped_files

/-- Embedding of `CompressorEngine._process_files` (lines 261-342): run the
loop, then build the result; `success` is `failed == 0`. -/
def processFiles (patterns : List (String × String)) (cfg : CompressionConfig)
    (d : DateVars) (stop : Nat → Bool) (inputs : List FileIn) (counter : Nat) :
    CompressionResult × List StepRec :=
  let steps := processLoop patterns cfg d stop inputs 0 counter
  (⟨failedOf steps == 0, processedOf steps, failedOf steps, skippedOf steps,
    savedOf steps, 0, errorsOf steps, ""⟩, steps)

/-- Environment of one `compress_files` invocation: the validation-relevant
facts about the source directory, the pattern dict from the configuration
manager, the scan result, backup-folder creatability, and the external stop
signal. -/
structure RunEnv where
  sourceExists : Bool
  sourceIsDir : Bool
  sourceReadable : Bool
  patterns : List (String × String)
  scanned : List FileIn
  backupCreatable : Bool
  stop : Nat → Bool
  d : DateVars

/-- Readable flag of `FileManager.validate_permissions` (file_manager.py
lines 304-332): `os.access` is consulted only when the directory exists. -/
def permsReadable (env : RunEnv) : Bool :=
  env.sourceExists && env.sourceReadable

/-- Embedding of `CompressorEngine._validate_config` (lines 227-259).  The
Python messages interpolate the offending path; the model keeps the fixed
message prefixes.  Note which checks are present: source existence /
directory-ness / readability, compression level in [0, 9], and naming
pattern known or the literal `personalizado` — nothing about the custom
pattern string or the backup folder. -/
def validateConfig (env : RunEnv) (cfg : CompressionConfig) : List String :=
  (if env.sourceExists = false then ["Carpeta origen no existe"]
   else if env.sourceIsDir = false then ["La ruta origen no es un directorio"]
   else [])
  ++ (if permsReadable env = false then ["Sin permisos de lectura en carpeta origen"] else [])
  ++ (if 0 ≤ cfg.compression_level ∧ cfg.compression_level ≤ 9 then []
      else ["Nivel de compresión debe estar entre 0 y 9"])
  ++ (if (List.lookup cfg.naming_pattern env.patterns).isSome ∨ cfg.naming_pattern = "personalizado"
      then [] else ["Patrón de nomenclatura inválido"])

/-- Mutable control state of a `CompressorEngine` instance. -/
structure EngineState where
  is_running : Bool := false
  is_paused : Bool := false
  should_stop : Bool := false
  file_counter : Nat := 1
deriving Repr, DecidableEq

/-- Everything observable about one `compress_files` invocation: the result
returned to the caller, the per-file step records, whether backup-folder
creation was attempted, and the engine state afterwards. -/
structure RunReport where
  result : CompressionResult
  steps : List StepRec
  backupFolderAttempted : Bool
  finalState : EngineState

/-- Embedding of `CompressorEngine.compress_files` (lines 114-225).  Entry
unconditionally sets `is_running`, clears `should_stop` and resets
`file_counter` to 1 — the incoming state is read by no branch of the source
(in particular `is_running` is never checked), it is only overwritten.
Then: validation failure returns a failed result with zero counters before
scanning; an empty scan returns an all-zero success before the backup folder
is created; a failed backup-folder creation returns a failed result with
zero counters; otherwise the per-file loop runs starting from counter 1.
The `finally` block clears `is_running`. -/
def compressFiles (env : RunEnv) (cfg : CompressionConfig) (st : EngineState) : RunReport :=
  let st1 : EngineState := { st with is_running := true, should_stop := false, file_counter := 1 }
  let verrs := validateConfig env cfg
  if verrs ≠ [] then
    { result := ⟨false, 0, 0, 0, 0, 0, verrs, ""⟩, steps := [],
      backupFolderAttempted := false, finalState := { st1 with is_running := false } }
  else if env.scanned.isEmpty then
    { result := ⟨true, 0, 0, 0, 0, 0, [], ""⟩, steps := [],
      backupFolderAttempted := false, finalState := { st1 with is_running := false } }
  else if env.backupCreatable = false then
    { result := ⟨false, 0, 0, 0, 0, 0, ["No se pudo crear carpeta de respaldo"], ""⟩,
      steps := [], backupFolderAttempted := true,
      finalState := { st1 with is_running := false } }
  else
    let pr := processFiles env.patterns cfg env.d env.stop env.scanned 1
    let ctr : Nat := ((pr.2.getLast?).map StepRec.counterAfter).getD 1
    { result := pr.1, steps := pr.2, backupFolderAttempted := true,
      finalState := { st1 with is_running := false, file_counter := ctr } }

/-- Fixed date strings used by the concrete test environments. -/
def dates0 : DateVars := ⟨"2026-01-01", "20260101", "00-00-00", "20260101_000000"⟩

/-- A concrete 100-byte source file. -/
def file0 : FileRec := ⟨"doc.txt", "doc", ".txt", 100, "DOC"⟩

/-- The archive produced for `file0` by a clean write: one entry, matching
name and size, not corrupt. -/
def zipOk : ZipArchive := ⟨[⟨"doc.txt", 100⟩], none, false⟩

/-- A clean per-file environment: no pre-existing zip, write succeeds, the
archive reads back intact at 40 bytes. -/
def fs0 : FsEnv := { readBack := zipOk, compressedSize := 40 }

/-- A clean relocation environment: source present, backup creatable, no
name collision, move succeeds. -/
def mv0 : MoveEnv := {}

/-- The file `file0` with clean environments. -/
def in0 : FileIn := ⟨file0, fs0, mv0⟩

/-- A valid configuration using the default `fecha_archivo` pattern. -/
def cfg0 : CompressionConfig := { naming_pattern := "fecha_archivo" }

/-- A run environment in which everything succeeds for the single file
`in0`. -/
def env0 : RunEnv :=
  { sourceExists := true, sourceIsDir := true, sourceReadable := true,
    patterns := defaultNamingPatterns, scanned := [in0], backupCreatable := true,
    stop := fun _ => false, d := dates0 }

/-- Each loop iteration records exactly one of the three outcome tags, so the
three accumulators always sum to the number of recorded steps. -/
theorem counts_partition (l : List StepRec) :
    processedOf l + failedOf l + skippedOf l = l.length := by
  induction l with
  | nil => rfl
  | cons s t ih =>
    have hone : (if isSuccess s.status then 1 else 0) + (if isError s.status then 1 else 0)
        + (if isSkip s.status then 1 else 0) = 1 := by
      cases s.status <;> rfl
    unfold processedOf failedOf skippedOf at ih ⊢
    simp only [List.countP_cons, List.length_cons]
    omega

/-- With the stop flag never set, the loop records one step per scanned
file. -/
theorem processLoop_length (patterns : List (String × String)) (cfg : CompressionConfig)
    (d : DateVars) (stop : Nat → Bool) (h : ∀ i, stop i = false) :
    ∀ (inputs : List FileIn) (i c : Nat),
      (processLoop patterns cfg d stop inputs i c).length = inputs.length := by
  intro inputs
  induction inputs with
  | nil => intro i c; rfl
  | cons x xs ih => intro i c; simp [processLoop, h i, ih]

/-- When validation passes, the scan is non-empty and the backup folder is
creatable, `compress_files` reaches the processing loop and its result is
assembled from the loop's step records starting at counter 1. -/
theorem compressFiles_run (env : RunEnv) (cfg : CompressionConfig) (st : EngineState)
    (hv : validateConfig env cfg = []) (hne : env.scanned.isEmpty = false)
    (hb : env.backupCreatable = true) :
    (compressFiles env cfg st).steps
        = processLoop env.patterns cfg env.d env.stop env.scanned 0 1
    ∧ (compressFiles env cfg st).result =
        ⟨failedOf (compressFiles env cfg st).steps == 0,
         processedOf (compressFiles env cfg st).steps,
         failedOf (compressFiles env cfg st).steps,
         skippedOf (compressFiles env cfg st).steps,
         savedOf (compressFiles env cfg st).steps, 0,
         errorsOf (compressFiles env cfg st).steps, ""⟩ := by
  unfold compressFiles processFiles
  simp [hv, hne, hb]

/-- C1: for every valid configuration and non-empty scanned file list, when
`compress_files` runs to completion (no stop requested), the returned result
satisfies `processed_files + failed_files + skipped_files` equal to the
number of scanned files, and after any prefix of k completed files the
running counts sum to k. -/
theorem c1_run_counts (env : RunEnv) (cfg : CompressionConfig) (st : EngineState)
    (hv : validateConfig env cfg = []) (hne : env.scanned ≠ [])
    (hb : env.backupCreatable = true) (hstop : ∀ i, env.stop i = false) :
    (compressFiles env cfg st).result.processed_files
      + (compressFiles env cfg st).result.failed_files
      + (compressFiles env cfg st).result.skipped_files = env.scanned.length
    ∧ ∀ k, k ≤ env.scanned.length →
        processedOf ((compressFiles env cfg st).steps.take k)
          + failedOf ((compressFiles env cfg st).steps.take k)
          + skippedOf ((compressFiles env cfg st).steps.take k) = k := by
  have h1 : env.scanned.isEmpty = false := by
    cases hs : env.scanned with
    | nil => exact absurd hs hne
    | cons a l => rfl
  obtain ⟨hsteps, hres⟩ := compressFiles_run env cfg st hv h1 hb
  have hlen : (compressFiles env cfg st).steps.length = env.scanned.length := by
    rw [hsteps]; exact processLoop_length _ _ _ _ hstop _ 0 1
  constructor
  · rw [hres]
    exact (counts_partition _).trans hlen
  · intro k hk
    have hp := counts_partition ((compressFiles env cfg st).steps.take k)
    rw [List.length_take, hlen] at hp
    omega

/-- Witness for C1 at the concrete one-file environment. -/
theorem c1_run_counts_witness :
    ((compressFiles env0 cfg0 {}).result.processed_files
      + (compressFiles env0 cfg0 {}).result.failed_files
      + (compressFiles env0 cfg0 {}).result.skipped_files = env0.scanned.length)
    ∧ ∀ k, k ≤ env0.scanned.length →
        processedOf ((compressFiles env0 cfg0 {}).steps.take k)
          + failedOf ((compressFiles env0 cfg0 {}).steps.take k)
          + skippedOf ((compressFiles env0 cfg0 {}).steps.take k) = k :=
  c1_run_counts env0 cfg0 {} (by decide) (List.cons_ne_nil in0 [])
    (by decide) (fun i => rfl)

/-- The incoming engine state is read by no branch of `compress_files`
(lines 123-126 only overwrite it): the returned result and step records are
identical whatever the prior state. -/
theorem compressFiles_state_irrelevant (env : RunEnv) (cfg : CompressionConfig)
    (st st' : EngineState) :
    (compressFiles env cfg st).result = (compressFiles env cfg st').result
    ∧ (compressFiles env cfg st).steps = (compressFiles env cfg st').steps := by
  unfold compressFiles
  by_cases h1 : validateConfig env cfg ≠ []
  · simp [h1]
  · by_cases h2 : env.scanned.isEmpty
    · simp [h1, h2]
    · by_cases h3 : env.backupCreatable = false
      · simp [h1, h2, h3]
      · simp [h1, h2, h3]

/-- C4 (behavior the code actually has): `compress_files` contains no check
of `is_running`/`is_paused`, so a second Start on an engine already marked
running and paused is not rejected — it returns the same result as a Start
on an idle engine, and on the concrete one-file environment it executes the
run to a successful completion. -/
theorem c4_second_start_not_rejected :
    (compressFiles env0 cfg0
        { is_running := true, is_paused := true, should_stop := false,
          file_counter := 7 }).result
      = (compressFiles env0 cfg0 {}).result
    ∧ (compressFiles env0 cfg0
        { is_running := true, is_paused := true, should_stop := false,
          file_counter := 7 }).result.success = true
    ∧ (compressFiles env0 cfg0
        { is_running := true, is_paused := true, should_stop := false,
          file_counter := 7 }).result.processed_files = 1 :=
  ⟨(compressFiles_state_irrelevant env0 cfg0 _ _).1, by decide, by decide⟩

/-- The step produced for a file always records the counter value it was
given (the value bound to `contador` for that file). -/
theorem processStep_counterUsed (patterns : List (String × String))
    (cfg : CompressionConfig) (d : DateVars) (x : FileIn) (c : Nat) :
    (processStep patterns cfg d x c).counterUsed = c := by
  unfold processStep
  dsimp only
  split <;> rfl

/-- The first step of the loop, when one exists, uses the starting counter. -/
theorem processLoop_head_counter (patterns : List (String × String))
    (cfg : CompressionConfig) (d : DateVars) (stop : Nat → Bool) :
    ∀ (inputs : List FileIn) (i c : Nat) (s : StepRec) (l : List StepRec),
      processLoop patterns cfg d stop inputs i c = s :: l → s.counterUsed = c := by
  intro inputs i c s l h
  cases inputs with
  | nil => simp [processLoop] at h
  | cons x xs =>
    unfold processLoop at h
    by_cases hs : stop i
    · simp [hs] at h
    · simp [hs] at h
      rw [← h.1]
      exact processStep_counterUsed patterns cfg d x c

/-- C9: every invocation of `compress_files` resets the engine's naming
counter to 1 before any file is processed — the report does not depend on
the engine's prior counter (or any prior state), and the first processed
file of any run is named with counter value 1. -/
theorem c9_counter_reset (env : RunEnv) (cfg : CompressionConfig) (st : EngineState) :
    ((compressFiles env cfg st).result
        = (compressFiles env cfg { st with file_counter := 1 }).result
      ∧ (compressFiles env cfg st).steps
        = (compressFiles env cfg { st with file_counter := 1 }).steps)
    ∧ ∀ s l, (compressFiles env cfg st).steps = s :: l → s.counterUsed = 1 := by
  refine ⟨compressFiles_state_irrelevant env cfg _ _, ?_⟩
  intro s l hsl
  unfold compressFiles at hsl
  by_cases h1 : validateConfig env cfg ≠ []
  · simp [h1] at hsl
  · by_cases h2 : env.scanned.isEmpty
    · simp [h1, h2] at hsl
    · by_cases h3 : env.backupCreatable = false
      · simp [h1, h2, h3] at hsl
      · simp [h1, h2, h3, processFiles] at hsl
        exact processLoop_head_counter env.patterns cfg env.d env.stop
          env.scanned 0 1 s l hsl

/-- Witness for C9: an engine whose counter was left at 42 by a previous run
still names the first file of the next run with counter 1. -/
theorem c9_counter_reset_witness :
    (processStep defaultNamingPatterns cfg0 dates0 in0 1).counterUsed = 1 :=
  (c9_counter_reset env0 cfg0
    { is_running := false, is_paused := false, should_stop := false,
      file_counter := 42 }).2
    (processStep defaultNamingPatterns cfg0 dates0 in0 1) [] rfl

/-- C10: when the scan finds zero matching files, `compress_files` returns
success with all counters zero, zero saved bytes and no errors, without
attempting to create the backup folder and without processing any file. -/
theorem c10_empty_scan (env : RunEnv) (cfg : CompressionConfig) (st : EngineState)
    (hv : validateConfig env cfg = []) (hs : env.scanned = []) :
    (compressFiles env cfg st).result = ⟨true, 0, 0, 0, 0, 0, [], ""⟩
    ∧ (compressFiles env cfg st).backupFolderAttempted = false
    ∧ (compressFiles env cfg st).steps = [] := by
  unfold compressFiles
  simp [hv, hs]

/-- The clean run environment with an empty scan result. -/
def envEmpty : RunEnv := { env0 with scanned := [] }

/-- Witness for C10 at the concrete empty-scan environment. -/
theorem c10_empty_scan_witness :
    (compressFiles envEmpty cfg0 {}).result = ⟨true, 0, 0, 0, 0, 0, [], ""⟩
    ∧ (compressFiles envEmpty cfg0 {}).backupFolderAttempted = false
    ∧ (compressFiles envEmpty cfg0 {}).steps = [] :=
  c10_empty_scan envEmpty cfg0 {} (by decide) rfl

/-- A configuration selecting the custom pattern but leaving the custom
string empty. -/
def cfgEmptyCustom : CompressionConfig := { naming_pattern := "personalizado" }

/-- C7 counterexample: the claim requires validation to reject a custom
naming pattern with an empty custom string (run Failed, zero files touched),
but `_validate_config` accepts it — validation returns no errors and the
run proceeds, processing the file and succeeding. -/
theorem c7_counterexample :
    validateConfig env0 cfgEmptyCustom = []
    ∧ (compressFiles env0 cfgEmptyCustom {}).result.success = true
    ∧ (compressFiles env0 cfgEmptyCustom {}).result.processed_files = 1 :=
  ⟨by decide, by decide, by decide⟩

/-- C7 amended: `_validate_config` checks exactly source existence,
directory-ness and readability, compression level in [0, 9], and naming
pattern known or the literal `personalizado` (nothing about the custom
string); any validation error makes the run fail with zero counters, no
backup-folder attempt and no file processed; backup-root creatability is
checked only after a non-empty scan, and its failure likewise fails the run
with zero counters and no file processed. -/
theorem c7_amended (env : RunEnv) (cfg : CompressionConfig) (st : EngineState) :
    (validateConfig env cfg = [] ↔
      env.sourceExists = true ∧ env.sourceIsDir = true ∧ env.sourceReadable = true
        ∧ 0 ≤ cfg.compression_level ∧ cfg.compression_level ≤ 9
        ∧ ((List.lookup cfg.naming_pattern env.patterns).isSome = true
            ∨ cfg.naming_pattern = "personalizado"))
    ∧ (validateConfig env cfg ≠ [] →
        (compressFiles env cfg st).result.success = false
        ∧ (compressFiles env cfg st).result.processed_files = 0
        ∧ (compressFiles env cfg st).result.failed_files = 0
        ∧ (compressFiles env cfg st).result.skipped_files = 0
        ∧ (compressFiles env cfg st).result.total_size_saved = 0
        ∧ (compressFiles env cfg st).backupFolderAttempted = false
        ∧ (compressFiles env cfg st).steps = [])
    ∧ (validateConfig env cfg = [] → env.scanned ≠ [] → env.backupCreatable = false →
        (compressFiles env cfg st).result.success = false
        ∧ (compressFiles env cfg st).result.processed_files = 0
        ∧ (compressFiles env cfg st).result.failed_files = 0
        ∧ (compressFiles env cfg st).result.skipped_files = 0
        ∧ (compressFiles env cfg st).steps = []) := by
  refine ⟨?_, ?_, ?_⟩
  · unfold validateConfig permsReadable
    generalize (List.lookup cfg.naming_pattern env.patterns).isSome = q
    cases q <;> cases hE : env.sourceExists <;> cases hD : env.sourceIsDir <;>
      cases hR : env.sourceReadable <;>
      by_cases hP2 : cfg.naming_pattern = "personalizado" <;>
      by_cases hL1 : 0 ≤ cfg.compression_level <;>
      by_cases hL2 : cfg.compression_level ≤ 9 <;>
      simp [hE, hD, hR, hP2, hL1, hL2]
  · intro hv
    unfold compressFiles
    simp [hv]
  · intro hv hne hb
    have h1 : env.scanned.isEmpty = false := by
      cases hs : env.scanned with
      | nil => exact absurd hs hne
      | cons a l => rfl
    unfold compressFiles
    simp [hv, h1, hb]

/-- The clean run environment with a missing source directory. -/
def envNoSource : RunEnv := { env0 with sourceExists := false }

/-- Witness for C7 (amended): a missing source directory fails validation
and yields a failed run with zero counters and nothing touched. -/
theorem c7_amended_witness :
    (compressFiles envNoSource cfg0 {}).result.success = false
    ∧ (compressFiles envNoSource cfg0 {}).result.processed_files = 0
    ∧ (compressFiles envNoSource cfg0 {}).result.failed_files = 0
    ∧ (compressFiles envNoSource cfg0 {}).result.skipped_files = 0
    ∧ (compressFiles envNoSource cfg0 {}).result.total_size_saved = 0
    ∧ (compressFiles envNoSource cfg0 {}).backupFolderAttempted = false
    ∧ (compressFiles envNoSource cfg0 {}).steps = [] :=
  (c7_amended envNoSource cfg0 {}).2.1 (by decide)

/-- A custom pattern that is a lone open brace: malformed for `str.format`. -/
def cfgMalformed : CompressionConfig :=
  { naming_pattern := "personalizado", custom_pattern := "\x7b" }

/-- C3 counterexample: on a malformed template the naming engine does not
return the fallback name — `str.format` raises ValueError, which the
source's `except KeyError` does not catch, so the exception escapes
`_generate_zip_name` instead. -/
theorem c3_counterexample :
    generateZipName defaultNamingPatterns cfgMalformed dates0 file0 1 =
      .error "Single open brace encountered in format string"
    ∧ generateZipName defaultNamingPatterns cfgMalformed dates0 file0 1 ≠
      .ok (dates0.fecha ++ "_" ++ file0.stem ++ ".zip", 1) :=
  ⟨rfl, fun h => Except.noConfusion h⟩

/-- C3 amended: name generation falls back (with a logged warning) exactly
when substitution fails with an unknown placeholder (KeyError), returning
the fixed `{date}_{stem}` default without incrementing the counter; every
name it returns carries the `.zip` suffix; but when the template is
malformed (`str.format` raises ValueError or IndexError) the exception
propagates out of `_generate_zip_name` and is absorbed only one level up,
by the per-file handler of `_compress_single_file`, as an error outcome. -/
theorem c3_amended (patterns : List (String × String)) (cfg : CompressionConfig)
    (d : DateVars) (f : FileRec) (counter : Nat) :
    (∀ k, pyFormat (nameVars d f counter) (chosenPattern patterns cfg)
        = .error (.keyError k) →
      generateZipName patterns cfg d f counter
        = .ok (d.fecha ++ "_" ++ f.stem ++ ".zip", counter))
    ∧ (∀ s, pyFormat (nameVars d f counter) (chosenPattern patterns cfg) = .ok s →
      generateZipName patterns cfg d f counter = .ok (s ++ ".zip", counter + 1))
    ∧ (∀ nm c2, generateZipName patterns cfg d f counter = .ok (nm, c2) →
      ∃ base, nm = base ++ ".zip")
    ∧ (∀ m, pyFormat (nameVars d f counter) (chosenPattern patterns cfg)
        = .error (.valueError m) →
      generateZipName patterns cfg d f counter = .error m
      ∧ ∀ (fsE : FsEnv),
          (compressSingleFile patterns cfg d fsE f counter).status = .error m) := by
  refine ⟨?_, ?_, ?_, ?_⟩
  · intro k hk
    unfold generateZipName
    simp only [hk]
  · intro s hs
    unfold generateZipName
    simp only [hs]
  · intro nm c2 h
    unfold generateZipName at h
    cases hp : pyFormat (nameVars d f counter) (chosenPattern patterns cfg) with
    | ok s =>
      simp only [hp, Except.ok.injEq, Prod.mk.injEq] at h
      exact ⟨s, h.1.symm⟩
    | error e =>
      cases e with
      | keyError k =>
        simp only [hp, Except.ok.injEq, Prod.mk.injEq] at h
        exact ⟨d.fecha ++ "_" ++ f.stem, by rw [← h.1]⟩
      | valueError m =>
        simp only [hp] at h
        exact absurd h (fun hh => Except.noConfusion hh)
  · intro m hm
    have hg : generateZipName patterns cfg d f counter = .error m := by
      unfold generateZipName
      simp only [hm]
    refine ⟨hg, ?_⟩
    intro fsE
    unfold compressSingleFile
    simp only [hg]

/-- A custom pattern whose single placeholder is unknown to the naming
variables. -/
def cfgUnknownKey : CompressionConfig :=
  { naming_pattern := "personalizado", custom_pattern := "\x7bmissing\x7d" }

/-- Witness for C3 (amended): an unknown placeholder produces the fallback
name with the counter unchanged. -/
theorem c3_amended_witness :
    generateZipName defaultNamingPatterns cfgUnknownKey dates0 file0 1 =
      .ok (dates0.fecha ++ "_" ++ file0.stem ++ ".zip", 1) :=
  (c3_amended defaultNamingPatterns cfgUnknownKey dates0 file0 1).1 "missing" rfl

/-- When the format call succeeds, `_compress_single_file` leaves the
counter advanced by exactly one, whatever else happens to the file. -/
theorem compressSingleFile_counter_ok (patterns : List (String × String))
    (cfg : CompressionConfig) (d : DateVars) (fsE : FsEnv) (f : FileRec)
    (c : Nat) (s : String)
    (h : pyFormat (nameVars d f c) (chosenPattern patterns cfg) = .ok s) :
    (compressSingleFile patterns cfg d fsE f c).counter = c + 1 := by
  unfold compressSingleFile generateZipName
  simp only [h]
  repeat' split
  all_goals rfl

/-- When the format call succeeds, the step's `counterAfter` is the used
counter plus one. -/
theorem processStep_counterAfter_ok (patterns : List (String × String))
    (cfg : CompressionConfig) (d : DateVars) (x : FileIn) (c : Nat) (s : String)
    (h : pyFormat (nameVars d x.f c) (chosenPattern patterns cfg) = .ok s) :
    (processStep patterns cfg d x c).counterAfter = c + 1 := by
  unfold processStep
  dsimp only
  split <;> exact compressSingleFile_counter_ok patterns cfg d x.fs x.f c s h

/-- With no stop requested and every format call succeeding, the counters
used across the loop are consecutive from the start value. -/
theorem processLoop_counterUsed_map (patterns : List (String × String))
    (cfg : CompressionConfig) (d : DateVars) (stop : Nat → Bool)
    (hstop : ∀ i, stop i = false) :
    ∀ (inputs : List FileIn),
      (∀ x ∈ inputs, ∀ c : Nat, ∃ s,
        pyFormat (nameVars d x.f c) (chosenPattern patterns cfg) = .ok s) →
      ∀ (i c : Nat),
        (processLoop patterns cfg d stop inputs i c).map StepRec.counterUsed
          = List.range' c inputs.length := by
  intro inputs
  induction inputs with
  | nil => intro _ i c; rfl
  | cons x xs ih =>
    intro hok i c
    obtain ⟨s, hs⟩ := hok x (List.mem_cons_self x xs) c
    unfold processLoop
    rw [hstop i]
    simp only [Bool.false_eq_true, if_false, List.map_cons, List.length_cons,
      List.range'_succ]
    rw [processStep_counterUsed patterns cfg d x c,
      processStep_counterAfter_ok patterns cfg d x c s hs,
      ih (fun y hy => hok y (List.mem_cons_of_mem x hy)) (i + 1) (c + 1)]

/-- C5: for a stop-free run over N files in scan order whose naming pattern
formats successfully (for example one containing `contador`), the counter
values bound to `contador` are start, start+1, ..., start+N-1 with no gaps
or repeats; and the counter is not advanced on the KeyError fallback path. -/
theorem c5_counter_values (patterns : List (String × String))
    (cfg : CompressionConfig) (d : DateVars) (stop : Nat → Bool)
    (inputs : List FileIn) (start : Nat)
    (hstop : ∀ i, stop i = false)
    (hok : ∀ x ∈ inputs, ∀ c : Nat, ∃ s,
        pyFormat (nameVars d x.f c) (chosenPattern patterns cfg) = .ok s) :
    (∀ i, (processLoop patterns cfg d stop inputs i start).map StepRec.counterUsed
        = List.range' start inputs.length)
    ∧ (∀ (f : FileRec) (c : Nat) (k : String),
        pyFormat (nameVars d f c) (chosenPattern patterns cfg)
          = .error (.keyError k) →
        generateZipName patterns cfg d f c
          = .ok (d.fecha ++ "_" ++ f.stem ++ ".zip", c)) := by
  constructor
  · intro i
    exact processLoop_counterUsed_map patterns cfg d stop hstop inputs hok i start
  · intro f c k hk
    unfold generateZipName
    simp only [hk]

/-- A custom pattern using the counter placeholder. -/
def cfgContador : CompressionConfig :=
  { naming_pattern := "personalizado",
    custom_pattern := "\x7bcontador\x7d_\x7bnombre_original\x7d" }

/-- Witness for C5: two files processed with a `contador` pattern starting
at 5 are numbered 5 and 6. -/
theorem c5_counter_values_witness :
    (processLoop defaultNamingPatterns cfgContador dates0 (fun _ => false)
        [in0, in0] 0 5).map StepRec.counterUsed = List.range' 5 2 :=
  (c5_counter_values defaultNamingPatterns cfgContador dates0 (fun _ => false)
    [in0, in0] 5 (fun _ => rfl)
    (by
      intro x hx c
      rcases List.mem_cons.mp hx with h | h
      · exact ⟨toString c ++ "_doc", by rw [h]; rfl⟩
      · rcases List.mem_cons.mp h with h2 | h2
        · exact ⟨toString c ++ "_doc", by rw [h2]; rfl⟩
        · exact absurd h2 (List.not_mem_nil x))).1 0

/-- A success outcome of `_compress_single_file` is only produced after the
archive was written and not unlinked. -/
theorem compressSingleFile_success_shape (patterns : List (String × String))
    (cfg : CompressionConfig) (d : DateVars) (fsE : FsEnv) (f : FileRec)
    (c : Nat) (v : Int)
    (h : (compressSingleFile patterns cfg d fsE f c).status = .success v) :
    (compressSingleFile patterns cfg d fsE f c).archiveWritten = true
    ∧ (compressSingleFile patterns cfg d fsE f c).archiveUnlinked = false := by
  unfold compressSingleFile at h ⊢
  repeat' split at h
  all_goals (repeat' split)
  all_goals simp_all

/-- C8: a file whose archive was produced successfully but whose relocation
to the backup root failed (returned none, e.g. a backup-name conflict under
policy skip) still records a success outcome with the backup warning, the
archive stays on disk, and in any tally it increments `processed` and
leaves `failed` and `skipped` unchanged. -/
theorem c8_relocation_failure (patterns : List (String × String))
    (cfg : CompressionConfig) (d : DateVars) (x : FileIn) (c : Nat) (v : Int)
    (hs : (compressSingleFile patterns cfg d x.fs x.f c).status = .success v)
    (hm : moveToBackup x.mv x.f.name x.f.stem x.f.ext cfg.conflict_resolution = none) :
    (processStep patterns cfg d x c).status = .success v
    ∧ (processStep patterns cfg d x c).moveAttempted = true
    ∧ (processStep patterns cfg d x c).backupWarning = true
    ∧ (processStep patterns cfg d x c).archiveWritten = true
    ∧ (processStep patterns cfg d x c).archiveUnlinked = false
    ∧ ∀ (pre post : List StepRec),
        processedOf (pre ++ processStep patterns cfg d x c :: post)
            = processedOf (pre ++ post) + 1
        ∧ failedOf (pre ++ processStep patterns cfg d x c :: post)
            = failedOf (pre ++ post)
        ∧ skippedOf (pre ++ processStep patterns cfg d x c :: post)
            = skippedOf (pre ++ post) := by
  obtain ⟨hw, hu⟩ := compressSingleFile_success_shape patterns cfg d x.fs x.f c v hs
  have hstep : processStep patterns cfg d x c =
      { status := .success v, counterUsed := c,
        counterAfter := (compressSingleFile patterns cfg d x.fs x.f c).counter,
        archiveWritten := true, archiveUnlinked := false,
        moveAttempted := true, movedTo := none, backupWarning := true } := by
    unfold processStep
    dsimp only
    rw [hs, hm, hw, hu]
    rfl
  refine ⟨by rw [hstep], by rw [hstep], by rw [hstep], by rw [hstep], by rw [hstep], ?_⟩
  intro pre post
  refine ⟨?_, ?_, ?_⟩ <;>
    simp [processedOf, failedOf, skippedOf, List.countP_append, List.countP_cons,
      hstep, isSuccess, isError, isSkip] <;> omega

/-- A relocation environment in which the backup folder already holds a file
named `doc.txt`. -/
def mvConflict : MoveEnv := { destEx := fun s => s == "doc.txt" }

/-- A configuration like `cfg0` but with the skip conflict policy. -/
def cfgSkip : CompressionConfig :=
  { naming_pattern := "fecha_archivo", conflict_resolution := .skip }

/-- Witness for C8: under policy skip with the backup name taken, the file
still counts as processed, with the warning and the archive kept. -/
theorem c8_relocation_failure_witness :
    (processStep defaultNamingPatterns cfgSkip dates0 ⟨file0, fs0, mvConflict⟩ 1).status
        = .success 60
    ∧ (processStep defaultNamingPatterns cfgSkip dates0 ⟨file0, fs0, mvConflict⟩ 1).moveAttempted
        = true
    ∧ (processStep defaultNamingPatterns cfgSkip dates0 ⟨file0, fs0, mvConflict⟩ 1).backupWarning
        = true
    ∧ (processStep defaultNamingPatterns cfgSkip dates0 ⟨file0, fs0, mvConflict⟩ 1).archiveWritten
        = true
    ∧ (processStep defaultNamingPatterns cfgSkip dates0 ⟨file0, fs0, mvConflict⟩ 1).archiveUnlinked
        = false
    ∧ ∀ (pre post : List StepRec),
        processedOf (pre ++ processStep defaultNamingPatterns cfgSkip dates0
              ⟨file0, fs0, mvConflict⟩ 1 :: post)
            = processedOf (pre ++ post) + 1
        ∧ failedOf (pre ++ processStep defaultNamingPatterns cfgSkip dates0
              ⟨file0, fs0, mvConflict⟩ 1 :: post)
            = failedOf (pre ++ post)
        ∧ skippedOf (pre ++ processStep defaultNamingPatterns cfgSkip dates0
              ⟨file0, fs0, mvConflict⟩ 1 :: post)
            = skippedOf (pre ++ post) :=
  c8_relocation_failure defaultNamingPatterns cfgSkip dates0
    ⟨file0, fs0, mvConflict⟩ 1 60 (by decide) (by decide)

/-- Failed verification after a clean write deletes the fresh archive and
returns an error outcome carrying the integrity message. -/
theorem compressSingleFile_verify_fail (patterns : List (String × String))
    (cfg : CompressionConfig) (d : DateVars) (fsE : FsEnv) (f : FileRec)
    (c : Nat) (nm : String) (c2 : Nat)
    (hvi : cfg.verify_integrity = true) (hwr : fsE.writeRaises = none)
    (hze : fsE.zipExists = false)
    (hgen : generateZipName patterns cfg d f c = .ok (nm, c2))
    (hvf : verifyZipIntegrity fsE.readBack f = false) :
    compressSingleFile patterns cfg d fsE f c =
      ⟨.error "Verificación de integridad falló", c2, nm, true, true⟩ := by
  unfold compressSingleFile
  simp [hgen, hze, hwr, hvi, hvf]

/-- C2: for a freshly written single-entry archive, verification succeeds
exactly when the archive opens cleanly, is not corrupt, and its single entry
carries the source file's base name and byte size; and on verification
failure (verify enabled, clean write) the file's outcome is an error, the
just-written archive is unlinked, and no relocation of the original is
attempted. -/
theorem c2_verification (z : ZipArchive) (f : FileRec)
    (hone : z.entries.length = 1) :
    (verifyZipIntegrity z f = true ↔
      z.openRaises = false ∧ z.badFile = none ∧ z.entries = [⟨f.name, f.size⟩])
    ∧ (verifyZipIntegrity z f = false →
      ∀ (patterns : List (String × String)) (cfg : CompressionConfig)
        (d : DateVars) (fsE : FsEnv) (mvE : MoveEnv) (c : Nat) (nm : String) (c2 : Nat),
        cfg.verify_integrity = true → fsE.readBack = z →
        fsE.writeRaises = none → fsE.zipExists = false →
        generateZipName patterns cfg d f c = .ok (nm, c2) →
        processStep patterns cfg d ⟨f, fsE, mvE⟩ c =
          { status := .error "Verificación de integridad falló",
            counterUsed := c, counterAfter := c2,
            archiveWritten := true, archiveUnlinked := true,
            moveAttempted := false, movedTo := none, backupWarning := false }) := by
  constructor
  · obtain ⟨e, he⟩ := List.length_eq_one.mp hone
    obtain ⟨en, es⟩ := e
    unfold verifyZipIntegrity
    rw [he]
    cases hO : z.openRaises
    · cases hB : z.badFile
      · by_cases hN : en = f.name
        · subst hN
          by_cases hS : es = f.size
          · subst hS
            simp
          · simp [hS]
        · simp [hN]
      · simp
    · simp
  · intro hvf patterns cfg d fsE mvE c nm c2 hvi hrb hwr hze hgen
    have hfail := compressSingleFile_verify_fail patterns cfg d fsE f c nm c2
      hvi hwr hze hgen (by rw [hrb]; exact hvf)
    unfold processStep
    dsimp only
    rw [hfail]

/-- The archive read back with a wrong entry size (999 instead of 100). -/
def zipBad : ZipArchive := ⟨[⟨"doc.txt", 999⟩], none, false⟩

/-- A per-file environment whose written archive reads back corrupted in
size. -/
def fsBad : FsEnv := { readBack := zipBad, compressedSize := 40 }

/-- Witness for C2: the size-mismatched archive fails verification, the file
ends in an error with the archive unlinked and no relocation attempted. -/
theorem c2_verification_witness :
    processStep defaultNamingPatterns cfg0 dates0 ⟨file0, fsBad, mv0⟩ 1 =
      { status := .error "Verificación de integridad falló",
        counterUsed := 1, counterAfter := 2,
        archiveWritten := true, archiveUnlinked := true,
        moveAttempted := false, movedTo := none, backupWarning := false } :=
  (c2_verification zipBad file0 rfl).2 (by decide) defaultNamingPatterns cfg0
    dates0 fsBad mv0 1 "2026-01-01_doc.zip" 2 rfl rfl rfl rfl rfl

/-- Specification of the `_generate_unique_name` loop: starting from
counter c with fuel covering the remaining tries up to 9999, it returns the
smallest free candidate at or above c, or the timestamp-suffixed name when
every candidate up to 9999 is taken. -/
theorem genUniqueLoop_spec (ex : String → Bool) (base ext ts : String) :
    ∀ (fuel c : Nat), 1 ≤ c → c + fuel = 10000 →
      ((∃ n, c ≤ n ∧ n ≤ 9999 ∧ ex (unameN base ext n) = false) →
        ∃ n, c ≤ n ∧ n ≤ 9999 ∧ ex (unameN base ext n) = false
          ∧ (∀ m, c ≤ m → m < n → ex (unameN base ext m) = true)
          ∧ genUniqueLoop ex base ext ts c fuel = unameN base ext n)
      ∧ ((∀ n, c ≤ n → n ≤ 9999 → ex (unameN base ext n) = true) →
        genUniqueLoop ex base ext ts c fuel = base ++ "_" ++ ts ++ ext) := by
  intro fuel
  induction fuel with
  | zero =>
    intro c hc1 hc2
    constructor
    · rintro ⟨n, hcn, hn9, _⟩
      omega
    · intro _
      rfl
  | succ fuel ih =>
    intro c hc1 hc2
    have hc9 : c ≤ 9999 := by omega
    by_cases hx : ex (unameN base ext c) = false
    · constructor
      · intro _
        refine ⟨c, le_refl c, hc9, hx, ?_, ?_⟩
        · intro m hm1 hm2
          omega
        · unfold genUniqueLoop
          simp [hx]
      · intro hall
        have := hall c (le_refl c) hc9
        rw [hx] at this
        simp at this
    · have hxT : ex (unameN base ext c) = true := by
        cases hxx : ex (unameN base ext c)
        · exact absurd hxx hx
        · rfl
      by_cases h99 : 9999 < c + 1
      · constructor
        · rintro ⟨n, hcn, hn9, hfree⟩
          have hnc : n = c := by omega
          rw [hnc] at hfree
          rw [hfree] at hxT
          simp at hxT
        · intro _
          unfold genUniqueLoop
          simp [hxT, h99]
      · have hrec := ih (c + 1) (by omega) (by omega)
        have hgl : genUniqueLoop ex base ext ts c (fuel + 1)
            = genUniqueLoop ex base ext ts (c + 1) fuel := by
          conv_lhs => unfold genUniqueLoop
          simp [hxT, h99]
        constructor
        · rintro ⟨n, hcn, hn9, hfree⟩
          have hn1 : c + 1 ≤ n := by
            rcases Nat.lt_or_ge c n with h | h
            · omega
            · have hnc : n = c := by omega
              rw [hnc] at hfree
              rw [hfree] at hxT
              simp at hxT
          obtain ⟨n2, hn2a, hn2b, hn2free, hn2min, hn2eq⟩ :=
            hrec.1 ⟨n, hn1, hn9, hfree⟩
          refine ⟨n2, by omega, hn2b, hn2free, ?_, by rw [hgl]; exact hn2eq⟩
          intro m hm1 hm2
          rcases Nat.eq_or_lt_of_le hm1 with h | h
          · rw [← h]
            exact hxT
          · exact hn2min m (by omega) hm2
        · intro hall
          rw [hgl]
          exact hrec.2 (fun n h1 h2 => hall n (by omega) h2)

/-- C6: under the rename policy (and ask, which falls back to rename) the
resolver returns the smallest `{stem}_{n}{ext}` with n starting at 1 that
does not already exist; after 9999 unsuccessful attempts it returns the
timestamp-suffixed name instead, guaranteeing termination.  The resolver is
a pure function of the existence predicate — it performs no writes. -/
theorem c6_unique_name (ex : String → Bool) (base ext ts : String) :
    ((∃ n, 1 ≤ n ∧ n ≤ 9999 ∧ ex (unameN base ext n) = false) →
      ∃ n, 1 ≤ n ∧ n ≤ 9999 ∧ ex (unameN base ext n) = false
        ∧ (∀ m, 1 ≤ m → m < n → ex (unameN base ext m) = true)
        ∧ generateUniqueName ex base ext ts = unameN base ext n
        ∧ resolveConflict ex base ext ts .rename = some (unameN base ext n)
        ∧ resolveConflict ex base ext ts .ask = some (unameN base ext n))
    ∧ ((∀ n, 1 ≤ n → n ≤ 9999 → ex (unameN base ext n) = true) →
      generateUniqueName ex base ext ts = base ++ "_" ++ ts ++ ext
      ∧ resolveConflict ex base ext ts .rename = some (base ++ "_" ++ ts ++ ext)
      ∧ resolveConflict ex base ext ts .ask = some (base ++ "_" ++ ts ++ ext)) := by
  have hspec := genUniqueLoop_spec ex base ext ts 9999 1 (le_refl 1) (by omega)
  constructor
  · intro hex
    obtain ⟨n, h1, h2, h3, h4, h5⟩ := hspec.1 hex
    have hg : generateUniqueName ex base ext ts = unameN base ext n := h5
    refine ⟨n, h1, h2, h3, h4, hg, ?_, ?_⟩
    · show some (generateUniqueName ex base ext ts) = _
      rw [hg]
    · show some (generateUniqueName ex base ext ts) = _
      rw [hg]
  · intro hall
    have hg : generateUniqueName ex base ext ts = base ++ "_" ++ ts ++ ext :=
      hspec.2 hall
    refine ⟨hg, ?_, ?_⟩
    · show some (generateUniqueName ex base ext ts) = _
      rw [hg]
    · show some (generateUniqueName ex base ext ts) = _
      rw [hg]

/-- Existence predicate for the C6 witness: only `a_1.txt` is taken. -/
def exW : String → Bool := fun s => s == "a_1.txt"

/-- Witness for C6: with `a_1.txt` taken, the resolver proposes `a_2.txt`
(the smallest free candidate), for both rename and ask. -/
theorem c6_unique_name_witness :
    ∃ n, 1 ≤ n ∧ n ≤ 9999 ∧ exW (unameN "a" ".txt" n) = false
      ∧ (∀ m, 1 ≤ m → m < n → exW (unameN "a" ".txt" m) = true)
      ∧ generateUniqueName exW "a" ".txt" "TS" = unameN "a" ".txt" n
      ∧ resolveConflict exW "a" ".txt" "TS" .rename = some (unameN "a" ".txt" n)
      ∧ resolveConflict exW "a" ".txt" "TS" .ask = some (unameN "a" ".txt" n) :=
  (c6_unique_name exW "a" ".txt" "TS").1 ⟨2, by decide⟩

end AutoCompresor
